import Mathlib

/-!
Verification of the request-dispatch core of the fastapi-monorepo API gateway.

The definitions below are a shallow embedding of the Python sources:
  libs/http_client/circuit_breaker.py  (CircuitBreaker)
  libs/api_gateway/gateway.py          (APIGateway request forwarding)
  libs/api_gateway/load_balancer.py    (LoadBalancer, ConnectionStats, StickySessionManager)
  libs/api_gateway/middleware.py       (RateLimitingMiddleware)

Wall-clock timestamps (Python `time.time()` floats) are modelled as rationals;
Python ints are modelled as Nat.
-/

namespace Gateway

/-! ### Circuit breaker (libs/http_client/circuit_breaker.py) -/

/-- The three circuit breaker states of `CircuitBreakerState` (CLOSED / OPEN / HALF_OPEN). -/
inductive CBState
  | closed
  | opened
  | half_open
deriving DecidableEq

/-- Embedding of `CircuitBreakerConfig`.  `failure_threshold`, `success_threshold`
are ints; `recovery_timeout` and `timeout` are seconds, compared against
`time.time()` differences, hence modelled as rationals. -/
structure CircuitBreakerConfig where
  failure_threshold : Nat
  recovery_timeout : ℚ
  success_threshold : Nat
  timeout : ℚ
deriving DecidableEq

/-- The mutable state of a `CircuitBreaker` object (its `name`, `config` and lock
are elided; the config is passed explicitly to each operation). -/
structure CircuitBreaker where
  state : CBState
  failure_count : Nat
  success_count : Nat
  last_failure_time : ℚ
deriving DecidableEq

/-- Embedding of `CircuitBreaker._should_attempt_reset`:
`(time.time() - self.last_failure_time) >= self.config.recovery_timeout`. -/
def shouldAttemptReset (cb : CircuitBreaker) (cfg : CircuitBreakerConfig) (now : ℚ) : Bool :=
  decide (cfg.recovery_timeout ≤ now - cb.last_failure_time)

/-- Embedding of `CircuitBreaker._on_success`: zero the failure counter; in
HALF_OPEN additionally bump the success counter and close the circuit once it
reaches `success_threshold` (zeroing the success counter). -/
def onSuccess (cb : CircuitBreaker) (cfg : CircuitBreakerConfig) : CircuitBreaker :=
  let cb := { cb with failure_count := 0 }
  if cb.state = CBState.half_open then
    let sc := cb.success_count + 1
    if cfg.success_threshold ≤ sc then
      { cb with state := CBState.closed, success_count := 0 }
    else
      { cb with success_count := sc }
  else cb

/-- Embedding of `CircuitBreaker._on_failure`: bump the failure counter and stamp
`last_failure_time`; HALF_OPEN trips straight to OPEN, CLOSED trips to OPEN once
the (already incremented) failure counter reaches `failure_threshold`. -/
def onFailure (cb : CircuitBreaker) (cfg : CircuitBreakerConfig) (now : ℚ) : CircuitBreaker :=
  let cb := { cb with failure_count := cb.failure_count + 1, last_failure_time := now }
  if cb.state = CBState.half_open then
    { cb with state := CBState.opened }
  else if cb.state = CBState.closed ∧ cfg.failure_threshold ≤ cb.failure_count then
    { cb with state := CBState.opened }
  else cb

/-- Admission phase of `CircuitBreaker.call` (the first `async with self.lock`
block): in OPEN, either move to HALF_OPEN (when `_should_attempt_reset`) or
reject with `CircuitBreakerOpenError` (`none`); other states pass unchanged. -/
def cbAdmit (cb : CircuitBreaker) (cfg : CircuitBreakerConfig) (now : ℚ) :
    Option CircuitBreaker :=
  if cb.state = CBState.opened then
    if shouldAttemptReset cb cfg now then
      some { cb with state := CBState.half_open }
    else
      none
  else
    some cb

/-- Result of one `CircuitBreaker.call`: the wrapped coroutine succeeded, raised
(a timeout from `asyncio.wait_for` also lands in the `except` branch), or was
never invoked because `CircuitBreakerOpenError` was raised. -/
inductive CallResult
  | success
  | failure
  | circuitOpen
deriving DecidableEq

/-- Embedding of `CircuitBreaker.call`.  `ok` is whether the wrapped function
(run under `asyncio.wait_for`) returns normally; a timeout counts as a failure.
When admission rejects, the wrapped function is not invoked, which the model
reflects by ignoring `ok` in that branch. -/
def cbCall (cb : CircuitBreaker) (cfg : CircuitBreakerConfig) (now : ℚ) (ok : Bool) :
    CallResult × CircuitBreaker :=
  match cbAdmit cb cfg now with
  | none => (CallResult.circuitOpen, cb)
  | some cb1 =>
      if ok then (CallResult.success, onSuccess cb1 cfg)
      else (CallResult.failure, onFailure cb1 cfg now)

/-- Iterated consecutive successful calls applied to a breaker state. -/
def cbSuccessIter (cb : CircuitBreaker) (cfg : CircuitBreakerConfig) : Nat → CircuitBreaker
  | 0 => cb
  | n + 1 => onSuccess (cbSuccessIter cb cfg n) cfg

/-! ### Service instances and connection statistics
(libs/api_gateway/config.py, libs/api_gateway/load_balancer.py) -/

/-- Embedding of the `ServiceInstance` dataclass (config.py); `last_health_check`
is irrelevant to the claims and elided. -/
structure ServiceInstance where
  host : String
  port : Nat
  weight : Nat
  healthy : Bool
deriving DecidableEq

/-- The `url` property: `f"http://{self.host}:{self.port}"`. -/
def ServiceInstance.url (i : ServiceInstance) : String :=
  "http://" ++ i.host ++ ":" ++ toString i.port

/-- The instance key used throughout load_balancer.py: `f"{host}:{port}"`. -/
def instanceKey (i : ServiceInstance) : String :=
  i.host ++ ":" ++ toString i.port

/-- Embedding of the `ConnectionStats` dataclass.  Counters are Python ints
(Nat here: `active_connections` is clamped with `max(0, ...)` on decrement,
and the others only grow); times are rationals. -/
structure ConnectionStats where
  active_connections : Nat
  total_requests : Nat
  failed_requests : Nat
  last_request_time : ℚ
  response_times : List ℚ
deriving DecidableEq

/-- The fresh `ConnectionStats()` value (its `last_request_time` factory reads
the clock; the claims never read that field, it is pinned to 0 here). -/
def ConnectionStats.init : ConnectionStats :=
  ⟨0, 0, 0, 0, []⟩

/-- The `success_rate` property: 1.0 when `total_requests == 0`, else
`(total_requests - failed_requests) / total_requests` (Python true division of
ints, hence the Int subtraction under the rational division). -/
def ConnectionStats.success_rate (s : ConnectionStats) : ℚ :=
  if s.total_requests = 0 then 1
  else ((s.total_requests : ℚ) - (s.failed_requests : ℚ)) / (s.total_requests : ℚ)

/-- The `average_response_time` property: 0.0 on an empty buffer, else the mean. -/
def ConnectionStats.average_response_time (s : ConnectionStats) : ℚ :=
  if s.response_times = [] then 0
  else s.response_times.sum / (s.response_times.length : ℚ)

/-- One recorded outcome against an instance's `ConnectionStats`:
`record_request_start` (with the clock value) or `record_request_end`
(success flag and optional response time). -/
inductive StatsEvent
  | reqStart (now : ℚ)
  | reqEnd (success : Bool) (response_time : Option ℚ)
deriving DecidableEq

/-- Embedding of `LoadBalancer.record_request_start` /
`LoadBalancer.record_request_end` acting on one instance's stats:
start bumps `active_connections` and `total_requests` and stamps the clock;
end decrements `active_connections` (clamped at 0), bumps `failed_requests`
on failure, and appends the response-time sample keeping only the last 100. -/
def applyStatsEvent (s : ConnectionStats) : StatsEvent → ConnectionStats
  | StatsEvent.reqStart now =>
      { s with active_connections := s.active_connections + 1,
               total_requests := s.total_requests + 1,
               last_request_time := now }
  | StatsEvent.reqEnd success response_time =>
      let s := { s with active_connections := s.active_connections - 1 }
      let s := if success then s else { s with failed_requests := s.failed_requests + 1 }
      match response_time with
      | none => s
      | some rt =>
          let ts := s.response_times ++ [rt]
          { s with response_times := if 100 < ts.length then ts.drop 1 else ts }

/-- The stats an instance carries after a sequence of recorded outcomes,
starting from a fresh `ConnectionStats()`. -/
def runStats (events : List StatsEvent) : ConnectionStats :=
  events.foldl applyStatsEvent ConnectionStats.init

/-- Whether an event is a recorded request start. -/
def isStartEvent : StatsEvent → Bool
  | StatsEvent.reqStart _ => true
  | _ => false

/-- Whether an event is a recorded request end with `success=False`. -/
def isFailedEnd : StatsEvent → Bool
  | StatsEvent.reqEnd success _ => !success
  | _ => false

/-! ### Load balancer (libs/api_gateway/load_balancer.py) -/

/-- The `LoadBalancingAlgorithm` enum (config.py). -/
inductive LoadBalancingAlgorithm
  | round_robin
  | least_connections
  | weighted_round_robin
  | ip_hash
  | random
deriving DecidableEq

/-- The mutable state of a `LoadBalancer` object: configured algorithm, the
health-check toggle, the shared round-robin cursor and the per-instance-key
stats map (an insertion-ordered dict, modelled as an association list). -/
structure LoadBalancerState where
  algorithm : LoadBalancingAlgorithm
  health_check_enabled : Bool
  round_robin_index : Nat
  connection_stats : List (String × ConnectionStats)
deriving DecidableEq

/-- Dict lookup `self._connection_stats.get(key, ConnectionStats())`. -/
def statsFor (lb : LoadBalancerState) (i : ServiceInstance) : ConnectionStats :=
  match lb.connection_stats.find? (fun p => p.1 == instanceKey i) with
  | some p => p.2
  | none => ConnectionStats.init

/-- Embedding of `LoadBalancer._round_robin_select` on a nonempty instance
list: pick `instances[index % len]`, then advance the cursor to
`(index + 1) % len`. -/
def round_robin_select (l : List ServiceInstance) (h : 0 < l.length) (idx : Nat) :
    ServiceInstance × Nat :=
  (l.get ⟨idx % l.length, Nat.mod_lt _ h⟩, (idx + 1) % l.length)

/-- Successive round-robin selections: the list of instances returned by `n`
calls of `_round_robin_select` starting from cursor `idx`. -/
def round_robin_run (l : List ServiceInstance) (h : 0 < l.length) :
    Nat → Nat → List ServiceInstance
  | _, 0 => []
  | idx, n + 1 =>
      let p := round_robin_select l h idx
      p.1 :: round_robin_run l h p.2 n

/-- Loop body of `_least_connections_select`: `min_connections = inf` is the
`none` accumulator; the selection is replaced on strictly smaller
`active_connections`. -/
def leastConnFold (lb : LoadBalancerState) (acc : ServiceInstance × Option Nat)
    (i : ServiceInstance) : ServiceInstance × Option Nat :=
  match acc.2 with
  | none => (i, some ((statsFor lb i).active_connections))
  | some m =>
      if (statsFor lb i).active_connections < m then
        (i, some ((statsFor lb i).active_connections))
      else acc

/-- Embedding of `LoadBalancer._least_connections_select`: scan the list with
`min_connections = inf` and `selected = instances[0]`. -/
def least_connections_select (lb : LoadBalancerState) (l : List ServiceInstance)
    (h : 0 < l.length) : ServiceInstance :=
  (l.foldl (leastConnFold lb) (l.get ⟨0, h⟩, none)).1

/-- The virtual weighted list of `_weighted_round_robin_select`: each instance
repeated `weight` times. -/
def weightedList (l : List ServiceInstance) : List ServiceInstance :=
  l.flatMap (fun i => List.replicate i.weight i)

/-- Embedding of `LoadBalancer._weighted_round_robin_select`: zero total weight
returns `instances[0]` without touching the cursor, otherwise round robin over
the weighted virtual list. -/
def weighted_round_robin_select (l : List ServiceInstance) (h : 0 < l.length)
    (idx : Nat) : ServiceInstance × Nat :=
  if hw : 0 < (weightedList l).length then
    round_robin_select (weightedList l) hw idx
  else
    (l.get ⟨0, h⟩, idx)

/-- Embedding of `LoadBalancer._ip_hash_select`: no client IP falls back to
`instances[0]`; otherwise index by the MD5 digest of the IP modulo the list
length.  The digest (`int(hashlib.md5(ip).hexdigest(), 16)`) is an external
pure function of the IP, passed in as the oracle `md5`. -/
def ip_hash_select (l : List ServiceInstance) (h : 0 < l.length)
    (md5 : String → Nat) (client_ip : Option String) : ServiceInstance :=
  match client_ip with
  | none => l.get ⟨0, h⟩
  | some ip => l.get ⟨md5 ip % l.length, Nat.mod_lt _ h⟩

/-- Embedding of `LoadBalancer._random_select`: `random.choice(instances)`.
The RNG draw is modelled as an oracle index `rnd` reduced modulo the length. -/
def random_select (l : List ServiceInstance) (h : 0 < l.length) (rnd : Nat) :
    ServiceInstance :=
  l.get ⟨rnd % l.length, Nat.mod_lt _ h⟩

/-- The health filter of `select_instance`:
`[i for i in instances if not self.health_check_enabled or i.healthy]`. -/
def healthyOf (lb : LoadBalancerState) (instances : List ServiceInstance) :
    List ServiceInstance :=
  instances.filter (fun i => !lb.health_check_enabled || i.healthy)

/-- Embedding of `LoadBalancer.select_instance`: empty list gives `none`;
otherwise filter to healthy instances when health checking is enabled, give
`none` when the filtered list is empty, and finally dispatch on the algorithm.
Returns the selection together with the updated balancer state (only the
round-robin cursor ever changes; selection never touches the stats map). -/
def select_instance (lb : LoadBalancerState) (instances : List ServiceInstance)
    (client_ip : Option String) (md5 : String → Nat) (rnd : Nat) :
    Option ServiceInstance × LoadBalancerState :=
  if instances = [] then (none, lb)
  else if h : 0 < (healthyOf lb instances).length then
    match lb.algorithm with
    | LoadBalancingAlgorithm.round_robin =>
        (some (round_robin_select (healthyOf lb instances) h lb.round_robin_index).1,
         { lb with round_robin_index :=
            (round_robin_select (healthyOf lb instances) h lb.round_robin_index).2 })
    | LoadBalancingAlgorithm.least_connections =>
        (some (least_connections_select lb (healthyOf lb instances) h), lb)
    | LoadBalancingAlgorithm.weighted_round_robin =>
        (some (weighted_round_robin_select (healthyOf lb instances) h lb.round_robin_index).1,
         { lb with round_robin_index :=
            (weighted_round_robin_select (healthyOf lb instances) h lb.round_robin_index).2 })
    | LoadBalancingAlgorithm.ip_hash =>
        (some (ip_hash_select (healthyOf lb instances) h md5 client_ip), lb)
    | LoadBalancingAlgorithm.random =>
        (some (random_select (healthyOf lb instances) h rnd), lb)
  else
    (none, lb)

/-- Embedding of `LoadBalancer.record_request_start` on the stats map: insert a
fresh `ConnectionStats()` when the key is absent, then bump
`active_connections`, `total_requests` and stamp `last_request_time`. -/
def record_request_start (lb : LoadBalancerState) (i : ServiceInstance) (now : ℚ) :
    LoadBalancerState :=
  let key := instanceKey i
  let old := match lb.connection_stats.find? (fun p => p.1 == key) with
             | some p => p.2
             | none => ConnectionStats.init
  let upd := applyStatsEvent old (StatsEvent.reqStart now)
  if (lb.connection_stats.find? (fun p => p.1 == key)).isSome then
    { lb with connection_stats :=
        lb.connection_stats.map (fun p => if p.1 == key then (p.1, upd) else p) }
  else
    { lb with connection_stats := lb.connection_stats ++ [(key, upd)] }

/-! ### Sticky sessions (libs/api_gateway/load_balancer.py, StickySessionManager) -/

/-- A sticky-session record: `{'instance_key': ..., 'created_at': ...}`. -/
structure SessionData where
  instance_key : String
  created_at : ℚ
deriving DecidableEq

/-- The `StickySessionManager._sessions` dict. -/
abbrev SessionMap := List (String × SessionData)

/-- Dict lookup in the session map. -/
def sessionLookup (sessions : SessionMap) (sid : String) : Option SessionData :=
  match sessions.find? (fun p => p.1 == sid) with
  | some p => some p.2
  | none => none

/-- Dict deletion in the session map. -/
def sessionDelete (sessions : SessionMap) (sid : String) : SessionMap :=
  sessions.filter (fun p => !(p.1 == sid))

/-- Embedding of `StickySessionManager.get_session_instance`: missing record
gives `none`; a record older than `session_timeout` is deleted and gives
`none`; otherwise the first instance whose `host:port` key matches is
returned (the record kept), and if no instance matches the record is deleted.
Note the lookup never consults `instance.healthy`. -/
def get_session_instance (sessions : SessionMap) (session_timeout now : ℚ)
    (sid : String) (instances : List ServiceInstance) :
    Option ServiceInstance × SessionMap :=
  match sessionLookup sessions sid with
  | none => (none, sessions)
  | some sd =>
      if session_timeout < now - sd.created_at then
        (none, sessionDelete sessions sid)
      else
        match instances.find? (fun i => instanceKey i == sd.instance_key) with
        | some i => (some i, sessions)
        | none => (none, sessionDelete sessions sid)

/-- Embedding of `StickySessionManager.create_session`. -/
def create_session (sessions : SessionMap) (sid : String) (i : ServiceInstance)
    (now : ℚ) : SessionMap :=
  if (sessions.find? (fun p => p.1 == sid)).isSome then
    sessions.map (fun p => if p.1 == sid then (p.1, ⟨instanceKey i, now⟩) else p)
  else
    sessions ++ [(sid, ⟨instanceKey i, now⟩)]

/-- Result of `APIGateway._select_upstream_instance`: the chosen instance (if
any), the updated balancer and session state, and whether
`record_request_start` was invoked for the chosen instance. -/
structure SelectUpstreamResult where
  chosen : Option ServiceInstance
  lb : LoadBalancerState
  sessions : SessionMap
  start_recorded : Bool
deriving DecidableEq

/-- Embedding of `APIGateway._select_upstream_instance`.  With sticky sessions
enabled and a `gateway_session` cookie present, a successful session lookup
returns that instance immediately — with no health filtering and no
`record_request_start`.  Only the fall-through load-balancer path records a
request start (and refreshes the session when sticky sessions apply). -/
def select_upstream_instance (sticky_sessions : Bool) (session_id : Option String)
    (sessions : SessionMap) (session_timeout now : ℚ)
    (instances : List ServiceInstance) (lb : LoadBalancerState)
    (client_ip : Option String) (md5 : String → Nat) (rnd : Nat) :
    SelectUpstreamResult :=
  let viaSticky : Option (ServiceInstance × SessionMap) :=
    match session_id with
    | some sid =>
        if sticky_sessions then
          match get_session_instance sessions session_timeout now sid instances with
          | (some i, sess2) => some (i, sess2)
          | (none, _) => none
        else none
    | none => none
  match viaSticky with
  | some (i, sess2) => ⟨some i, lb, sess2, false⟩
  | none =>
      let p := select_instance lb instances client_ip md5 rnd
      match p.1 with
      | some i =>
          let lb2 := record_request_start p.2 i now
          let sessions2 :=
            match session_id with
            | some sid => if sticky_sessions then create_session sessions sid i now else sessions
            | none => sessions
          ⟨some i, lb2, sessions2, true⟩
      | none => ⟨none, p.2, sessions, false⟩

/-! ### Router and upstream URL construction (libs/api_gateway/gateway.py) -/

/-- Python `str.startswith`, on the character lists of the strings. -/
def pyStartsWith (s p : String) : Bool :=
  p.data.isPrefixOf s.data

/-- Python `str.endswith`. -/
def pyEndsWith (s p : String) : Bool :=
  p.data.isSuffixOf s.data

/-- Python slicing `s[:-n]` for `n ≥ 1`: all but the last `n` characters. -/
def dropRightStr (s : String) (n : Nat) : String :=
  String.mk (s.data.take (s.data.length - n))

/-- Embedding of `APIGateway._path_matches`: a pattern ending in `/*` matches
by the prefix preceding the `/*`; a pattern ending in bare `*` matches by the
prefix preceding the `*`; any other pattern requires exact equality. -/
def path_matches (request_path route_path : String) : Bool :=
  if pyEndsWith route_path "/*" then
    pyStartsWith request_path (dropRightStr route_path 2)
  else if pyEndsWith route_path "*" then
    pyStartsWith request_path (dropRightStr route_path 1)
  else
    request_path == route_path

/-- The slice of `RouteConfig` the dispatch claims need. -/
structure RouteConfig where
  path : String
  service_name : String
deriving DecidableEq

/-- Embedding of `APIGateway._find_matching_route`: iterate the route dict in
insertion order and return the first route whose pattern matches. -/
def find_matching_route (routes : List RouteConfig) (path : String) :
    Option RouteConfig :=
  routes.find? (fun r => path_matches path r.path)

/-- Python `str.strip("/")`: remove leading and trailing `/` characters. -/
def stripSlashChars (s : String) : String :=
  String.mk (((s.data.dropWhile (fun c => c = '/')).reverse.dropWhile
    (fun c => c = '/')).reverse)

/-- Helper for Python `str.split("/")`. -/
def splitSlashGo : List Char → List Char → List String
  | [], acc => [String.mk acc.reverse]
  | c :: cs, acc =>
      if c = '/' then String.mk acc.reverse :: splitSlashGo cs []
      else splitSlashGo cs (c :: acc)

/-- Python `str.split("/")` (e.g. `"" ↦ [""]`, `"a//b" ↦ ["a","","b"]`). -/
def splitSlash (s : String) : List String :=
  splitSlashGo s.data []

/-- Python `"/".join(parts)`. -/
def joinSlash : List String → String
  | [] => ""
  | [s] => s
  | s :: rest => s ++ "/" ++ joinSlash rest

/-- Embedding of `APIGateway._build_upstream_url`.  `path` is the catch-all
path parameter, i.e. the request path without its leading slash.  With
`strip_path_prefix` set, the path is rewritten only when it splits (after
stripping outer slashes) into at least three segments whose first two are
`api` and `v1`: those three segments are dropped and the remainder is
re-rooted at `/`.  The (possibly rewritten) path is appended directly to
`instance.url`. -/
def build_upstream_url (i : ServiceInstance) (path : String)
    (stripPathPrefixFlag : Bool) : String :=
  let path :=
    if stripPathPrefixFlag then
      let parts := splitSlash (stripSlashChars path)
      if 3 ≤ parts.length ∧ parts.get? 0 = some "api" ∧ parts.get? 1 = some "v1" then
        if 3 < parts.length then "/" ++ joinSlash (parts.drop 3) else "/"
      else path
    else path
  i.url ++ path

/-- Removal of the single leading slash that FastAPI's catch-all route strips
from the request path before binding the `path` parameter. -/
def dropLeadingSlash (s : String) : String :=
  match s.data with
  | '/' :: cs => String.mk cs
  | _ => s

/-- Upstream URL seen for a full request path: FastAPI's `/{path:path}`
catch-all binds `path` to the request path without the leading slash, and
`_handle_proxy_request` passes that value to `_build_upstream_url`. -/
def upstream_url_for_request (i : ServiceInstance) (requestPath : String)
    (stripPathPrefixFlag : Bool) : String :=
  build_upstream_url i (dropLeadingSlash requestPath) stripPathPrefixFlag

/-- Formalisation of the claim's words for the strip rule (C8): "drop a leading
`/api/v1/<service>` or `/<service>` segment group from the request path and
append the remainder to the instance's base URL". -/
def claim_build_upstream_url (i : ServiceInstance) (service requestPath : String) :
    String :=
  let g1 := "/api/v1/" ++ service
  let g2 := "/" ++ service
  let rest :=
    if pyStartsWith requestPath g1 then String.mk (requestPath.data.drop g1.length)
    else if pyStartsWith requestPath g2 then String.mk (requestPath.data.drop g2.length)
    else requestPath
  i.url ++ rest

/-! ### Request forwarding failure flow (libs/api_gateway/gateway.py)

`_forward_request` wraps only the outbound `httpx` call: `httpx.TimeoutException`
becomes `HTTPException(504)`, `httpx.ConnectError` becomes `HTTPException(502)`,
and any other exception raised inside the `try` block becomes
`HTTPException(502)`.  Back in `_handle_proxy_request`, the first `except`
clause is `except HTTPException: raise`, placed before the branch that records
a failed request end and an error metric — so every failure surfaced by
`_forward_request` is re-raised untouched.  Only a non-HTTPException raised
elsewhere in the `try` block reaches the recording branch (mapped to 502).
Nothing in gateway.py constructs or consults a `CircuitBreaker`; the breaker
lives in libs/http_client and is not part of the proxy path.  To reason about
breaker counters, the model threads a breaker state through the handler
unchanged. -/

/-- Outcome of the outbound `httpx` request inside `_forward_request`. -/
inductive ForwardOutcome
  | ok (status : Nat)
  | timeoutErr
  | connectErr
  | otherErr
deriving DecidableEq

/-- What happens to `_handle_proxy_request` after an instance was selected:
either `_forward_request` ran to an outcome, or a non-HTTPException error was
raised elsewhere in the handler's `try` block. -/
inductive ProxyStep
  | forwarded (o : ForwardOutcome)
  | internalFailure
deriving DecidableEq

/-- Embedding of `_forward_request`'s result: the upstream status on success,
or the `HTTPException` status code it raises. -/
def forward_request : ForwardOutcome → Except Nat Nat
  | ForwardOutcome.ok status => Except.ok status
  | ForwardOutcome.timeoutErr => Except.error 504
  | ForwardOutcome.connectErr => Except.error 502
  | ForwardOutcome.otherErr => Except.error 502

/-- Observable effects of one `_handle_proxy_request` run past instance
selection: the response (or error) status, whether `record_request_end` ran
(and with which success flag), and whether a request / error metric was
recorded. -/
structure ProxyRecord where
  status : Nat
  end_recorded : Option Bool
  request_metric : Bool
  error_metric : Bool
deriving DecidableEq

/-- Embedding of the `try/except` tail of `_handle_proxy_request`: a successful
forward records `record_request_end(success=True)` plus a request metric and
returns the upstream status; a failing forward raises `HTTPException`, which
the `except HTTPException: raise` clause re-raises with nothing recorded; a
non-HTTPException internal failure records `record_request_end(success=False)`
plus an error metric and becomes a 502. -/
def handle_proxy_step : ProxyStep → ProxyRecord
  | ProxyStep.forwarded o =>
      match forward_request o with
      | Except.ok status => ⟨status, some true, true, false⟩
      | Except.error e => ⟨e, none, false, false⟩
  | ProxyStep.internalFailure => ⟨502, some false, false, true⟩

/-- The handler with a circuit breaker threaded through: gateway.py never
references a breaker on the proxy path, so the state passes through
unchanged. -/
def handle_proxy_step_cb (step : ProxyStep) (cb : CircuitBreaker) :
    ProxyRecord × CircuitBreaker :=
  (handle_proxy_step step, cb)

/-! ### Rate limiter (libs/api_gateway/middleware.py, RateLimitingMiddleware) -/

/-- Per-key bucket: the list of request timestamps (`rate_data["requests"]`). -/
abbrev RateBucket := List ℚ

/-- The `_rate_limits` dict, key → bucket. -/
abbrev RateState := List (String × RateBucket)

/-- Dict access with on-demand initialisation to the empty bucket. -/
def rateBucketFor (st : RateState) (key : String) : RateBucket :=
  ((st.find? (fun p => p.1 == key)).map Prod.snd).getD []

/-- Write a key's bucket back into the dict (`self._rate_limits[key][...] = ...`):
replace the entry when present, append a fresh entry otherwise. -/
def setRateBucket : RateState → String → RateBucket → RateState
  | [], key, b => [(key, b)]
  | p :: rest, key, b =>
      if p.1 == key then (p.1, b) :: rest
      else p :: setRateBucket rest key b

/-- The pruning step of `_is_rate_limited`: keep timestamps strictly younger
than 60 seconds. -/
def pruneBucket (now : ℚ) (b : RateBucket) : RateBucket :=
  b.filter (fun t => decide (now - t < 60))

/-- Embedding of `_is_rate_limited` for one key: prune the bucket (the pruned
bucket is written back), reject when the remaining count reaches `rpm`,
otherwise reject when the count of timestamps younger than one second reaches
`burst`. -/
def is_rate_limited (now : ℚ) (rpm burst : Nat) (b : RateBucket) :
    Bool × RateBucket :=
  let pruned := pruneBucket now b
  if rpm ≤ pruned.length then (true, pruned)
  else if burst ≤ (pruned.filter (fun t => decide (now - t < 1))).length then
    (true, pruned)
  else (false, pruned)

/-- A rate-limit dimension as produced by `_generate_rate_limit_keys`: the key
string with its `rpm` and `burst` limits. -/
structure RateKey where
  key : String
  rpm : Nat
  burst : Nat
deriving DecidableEq

/-- The checking loop of `RateLimitingMiddleware.dispatch`: keys are checked in
order; each check prunes (and persists) that key's bucket; the first limited
key aborts with a 429. -/
def checkRateKeys (now : ℚ) : RateState → List RateKey → Bool × RateState
  | st, [] => (false, st)
  | st, k :: rest =>
      let r := is_rate_limited now k.rpm k.burst (rateBucketFor st k.key)
      let st2 := setRateBucket st k.key r.2
      if r.1 then (true, st2) else checkRateKeys now st2 rest

/-- The recording loop of `dispatch` (`_record_request` per key): append the
current timestamp to every dimension's bucket. -/
def recordRateKeys (now : ℚ) (st : RateState) (keys : List RateKey) : RateState :=
  keys.foldl (fun st k => setRateBucket st k.key (rateBucketFor st k.key ++ [now])) st

/-- Embedding of `RateLimitingMiddleware.dispatch` for an enabled limiter:
check every dimension, and only when none rejects append the timestamp to
every dimension's bucket.  `true` in the first component means the request was
rejected with 429. -/
def rate_limit_dispatch (now : ℚ) (st : RateState) (keys : List RateKey) :
    Bool × RateState :=
  let c := checkRateKeys now st keys
  if c.1 then (true, c.2) else (false, recordRateKeys now c.2 keys)

/-- Repeated requests against the limiter: fold `rate_limit_dispatch` over a
list of (timestamp, dimension list) pairs, collecting each request's verdict. -/
def rateLimitRun (st : RateState) : List (ℚ × List RateKey) → List Bool × RateState
  | [] => ([], st)
  | (now, keys) :: rest =>
      let r := rate_limit_dispatch now st keys
      let rec' := rateLimitRun r.2 rest
      (r.1 :: rec'.1, rec'.2)

/-! ## Theorems -/

/-! ### Circuit breaker gating (C2) -/

/-- C2: for a breaker in OPEN state — while strictly less than
`recovery_timeout` has elapsed since `last_failure_time`, every call raises the
circuit-open error with the wrapped function never invoked and the state
untouched; once `recovery_timeout` has elapsed, admission moves the breaker to
HALF_OPEN before the wrapped function executes, and that call runs as a probe
from the HALF_OPEN state. -/
theorem claim2_open_gating (cb : CircuitBreaker) (cfg : CircuitBreakerConfig)
    (now : ℚ) (h : cb.state = CBState.opened) :
    (now - cb.last_failure_time < cfg.recovery_timeout →
      ∀ ok : Bool, cbCall cb cfg now ok = (CallResult.circuitOpen, cb)) ∧
    (cfg.recovery_timeout ≤ now - cb.last_failure_time →
      cbAdmit cb cfg now = some { cb with state := CBState.half_open } ∧
      ∀ ok : Bool, cbCall cb cfg now ok =
        (if ok then
          (CallResult.success, onSuccess { cb with state := CBState.half_open } cfg)
         else
          (CallResult.failure, onFailure { cb with state := CBState.half_open } cfg now))) := by
  constructor
  · intro hlt ok
    simp [cbCall, cbAdmit, shouldAttemptReset, h, not_le.mpr hlt]
  · intro hle
    have hs : shouldAttemptReset cb cfg now = true := by
      simp [shouldAttemptReset, hle]
    refine ⟨by simp [cbAdmit, h, hs], ?_⟩
    intro ok
    cases ok <;> simp [cbCall, cbAdmit, h, hs]

/-- Witness for C2 at a concrete breaker (`last_failure_time = 100`,
`recovery_timeout = 60`): a call at `t = 130` is rejected untouched, and at
`t = 160` admission yields the HALF_OPEN probe state. -/
theorem claim2_open_gating_witness :
    cbCall ⟨CBState.opened, 5, 0, 100⟩ ⟨5, 60, 3, 30⟩ 130 true
      = (CallResult.circuitOpen, ⟨CBState.opened, 5, 0, 100⟩) ∧
    cbAdmit ⟨CBState.opened, 5, 0, 100⟩ ⟨5, 60, 3, 30⟩ 160
      = some ⟨CBState.half_open, 5, 0, 100⟩ := by
  refine ⟨?_, ?_⟩
  · exact (claim2_open_gating ⟨CBState.opened, 5, 0, 100⟩ ⟨5, 60, 3, 30⟩ 130 rfl).1
      (by norm_num) true
  · exact ((claim2_open_gating ⟨CBState.opened, 5, 0, 100⟩ ⟨5, 60, 3, 30⟩ 160 rfl).2
      (by norm_num)).1

/-! ### Circuit breaker HALF_OPEN behaviour (C3) -/

/-- C3 counterexample: with `failure_threshold = 1`, `recovery_timeout = 10`
and `success_threshold = 2`, the reachable trace
fail at t=0 → OPEN; probe success at t=10 → HALF_OPEN with `success_count = 1`;
fail at t=11 → OPEN with `success_count` still 1; call at t=21 re-admits to
HALF_OPEN carrying `success_count = 1`, and that single success — fewer than
`success_threshold = 2` consecutive successes — already closes the circuit.
This refutes the claim that the breaker returns to CLOSED exactly after
`success_threshold` consecutive successful calls. -/
theorem claim3_counterexample :
    (cbCall ⟨CBState.closed, 0, 0, 0⟩ ⟨1, 10, 2, 30⟩ 0 false).2
      = ⟨CBState.opened, 1, 0, 0⟩ ∧
    (cbCall ⟨CBState.opened, 1, 0, 0⟩ ⟨1, 10, 2, 30⟩ 10 true).2
      = ⟨CBState.half_open, 0, 1, 0⟩ ∧
    (cbCall ⟨CBState.half_open, 0, 1, 0⟩ ⟨1, 10, 2, 30⟩ 11 false).2
      = ⟨CBState.opened, 1, 1, 11⟩ ∧
    cbAdmit ⟨CBState.opened, 1, 1, 11⟩ ⟨1, 10, 2, 30⟩ 21
      = some ⟨CBState.half_open, 1, 1, 11⟩ ∧
    (cbCall ⟨CBState.opened, 1, 1, 11⟩ ⟨1, 10, 2, 30⟩ 21 true).2
      = ⟨CBState.closed, 0, 0, 11⟩ ∧
    (1 : Nat) < 2 := by
  have hs1 : shouldAttemptReset ⟨CBState.opened, 1, 0, 0⟩ ⟨1, 10, 2, 30⟩ 10 = true := by
    simp only [shouldAttemptReset, decide_eq_true_eq]
    norm_num
  have hs2 : shouldAttemptReset ⟨CBState.opened, 1, 1, 11⟩ ⟨1, 10, 2, 30⟩ 21 = true := by
    simp only [shouldAttemptReset, decide_eq_true_eq]
    norm_num
  refine ⟨rfl, ?_, rfl, ?_, ?_, by norm_num⟩
  · simp [cbCall, cbAdmit, hs1, onSuccess]
  · simp [cbAdmit, hs2]
  · simp [cbCall, cbAdmit, hs2, onSuccess]

/-- A successful call never touches `last_failure_time`. -/
theorem onSuccess_last_failure_time (cb : CircuitBreaker) (cfg : CircuitBreakerConfig) :
    (onSuccess cb cfg).last_failure_time = cb.last_failure_time := by
  simp only [onSuccess]
  split
  · split <;> rfl
  · rfl

/-- Iterated successes never touch `last_failure_time`. -/
theorem cbSuccessIter_last_failure_time (cb : CircuitBreaker)
    (cfg : CircuitBreakerConfig) : ∀ m,
    (cbSuccessIter cb cfg m).last_failure_time = cb.last_failure_time := by
  intro m
  induction m with
  | zero => rfl
  | succ k ih => simp [cbSuccessIter, onSuccess_last_failure_time, ih]

/-- A HALF_OPEN success whose incremented counter reaches the threshold closes
the circuit and zeroes both counters. -/
theorem onSuccess_closes (cb : CircuitBreaker) (cfg : CircuitBreakerConfig)
    (h : cb.state = CBState.half_open)
    (hle : cfg.success_threshold ≤ cb.success_count + 1) :
    onSuccess cb cfg = ⟨CBState.closed, 0, 0, cb.last_failure_time⟩ := by
  simp [onSuccess, h, hle]

/-- Invariant for consecutive HALF_OPEN successes starting from a zeroed
success counter: below the threshold the breaker stays HALF_OPEN and the
counter tracks the number of successes. -/
theorem cbSuccessIter_below_threshold (cb : CircuitBreaker)
    (cfg : CircuitBreakerConfig) (h : cb.state = CBState.half_open)
    (h0 : cb.success_count = 0) :
    ∀ m, m < cfg.success_threshold →
      (cbSuccessIter cb cfg m).state = CBState.half_open ∧
      (cbSuccessIter cb cfg m).success_count = m := by
  intro m
  induction m with
  | zero => intro _; exact ⟨h, h0⟩
  | succ n ih =>
      intro hlt
      have hn := ih (Nat.lt_of_succ_lt hlt)
      have hnotle : ¬ cfg.success_threshold ≤ n + 1 := Nat.not_le_of_lt hlt
      simp only [cbSuccessIter, onSuccess, hn.1, hn.2, if_pos rfl, if_neg hnotle]
      exact ⟨rfl, rfl⟩

/-- C3 amended: in HALF_OPEN, a failed call immediately reopens the circuit,
stamps the failure clock, and leaves `success_count` unchanged (it is not
reset); a successful call zeroes `failure_count`, closes the circuit exactly
when the incremented `success_count` reaches `success_threshold` (resetting it
to 0), and otherwise just increments `success_count`.  Consequently a breaker
that enters HALF_OPEN with `success_count = 0` stays HALF_OPEN through any
fewer than `success_threshold` consecutive successes and closes (with both
counters zero) on the `success_threshold`-th — but because a HALF_OPEN failure
preserves `success_count`, a later HALF_OPEN round can close after fewer. -/
theorem claim3_half_open_behavior (cb : CircuitBreaker)
    (cfg : CircuitBreakerConfig) (now : ℚ) (h : cb.state = CBState.half_open) :
    ((onFailure cb cfg now).state = CBState.opened ∧
     (onFailure cb cfg now).last_failure_time = now ∧
     (onFailure cb cfg now).success_count = cb.success_count) ∧
    (cfg.success_threshold ≤ cb.success_count + 1 →
      onSuccess cb cfg = ⟨CBState.closed, 0, 0, cb.last_failure_time⟩) ∧
    (cb.success_count + 1 < cfg.success_threshold →
      onSuccess cb cfg =
        { cb with failure_count := 0, success_count := cb.success_count + 1 }) ∧
    (cb.success_count = 0 →
      (∀ m, m < cfg.success_threshold →
        (cbSuccessIter cb cfg m).state = CBState.half_open) ∧
      (0 < cfg.success_threshold →
        cbSuccessIter cb cfg cfg.success_threshold
          = ⟨CBState.closed, 0, 0, cb.last_failure_time⟩)) := by
  refine ⟨?_, ?_, ?_, ?_⟩
  · simp [onFailure, h]
  · intro hle
    exact onSuccess_closes cb cfg h hle
  · intro hlt
    simp [onSuccess, h, Nat.not_le_of_lt hlt]
  · intro h0
    refine ⟨fun m hm => (cbSuccessIter_below_threshold cb cfg h h0 m hm).1, ?_⟩
    intro hpos
    obtain ⟨n, hn⟩ : ∃ n, cfg.success_threshold = n + 1 :=
      ⟨cfg.success_threshold - 1, (Nat.succ_pred_eq_of_pos hpos).symm⟩
    have hinv := cbSuccessIter_below_threshold cb cfg h h0 n (by omega)
    have hlast : cbSuccessIter cb cfg cfg.success_threshold
        = onSuccess (cbSuccessIter cb cfg n) cfg := by
      rw [hn]; rfl
    rw [hlast, onSuccess_closes _ _ hinv.1 (by simp [hinv.2, hn]),
      cbSuccessIter_last_failure_time]

/-- Witness for C3's amended theorem at a concrete HALF_OPEN breaker
(`success_threshold = 3`): a failure reopens it, and three consecutive
successes from a zeroed counter close it. -/
theorem claim3_half_open_behavior_witness :
    (onFailure ⟨CBState.half_open, 2, 0, 5⟩ ⟨5, 60, 3, 30⟩ 7).state = CBState.opened ∧
    cbSuccessIter ⟨CBState.half_open, 2, 0, 5⟩ ⟨5, 60, 3, 30⟩ 3
      = ⟨CBState.closed, 0, 0, 5⟩ := by
  have H := claim3_half_open_behavior ⟨CBState.half_open, 2, 0, 5⟩ ⟨5, 60, 3, 30⟩ 7 rfl
  exact ⟨H.1.1, (H.2.2.2 rfl).2 (by decide)⟩

/-! ### Forwarding failure flow (C1) -/

/-- C1 counterexample: when the upstream call times out, the handler does
return 504, but `record_request_end` is never called (so no `success=false`
request end is recorded), no error metric is recorded, and no circuit
breaker's failure counter changes — `_handle_proxy_request` re-raises the
`HTTPException` from `_forward_request` before its recording branch, and
gateway.py's proxy path contains no circuit breaker at all.  This refutes the
claim's asserted bookkeeping on forwarding failures. -/
theorem claim1_counterexample :
    handle_proxy_step_cb (ProxyStep.forwarded ForwardOutcome.timeoutErr)
        ⟨CBState.closed, 0, 0, 0⟩
      = (⟨504, none, false, false⟩, ⟨CBState.closed, 0, 0, 0⟩) ∧
    ¬((handle_proxy_step (ProxyStep.forwarded ForwardOutcome.timeoutErr)).end_recorded
        = some false) ∧
    (handle_proxy_step (ProxyStep.forwarded ForwardOutcome.timeoutErr)).error_metric
        = false ∧
    (handle_proxy_step_cb (ProxyStep.forwarded ForwardOutcome.timeoutErr)
        ⟨CBState.closed, 0, 0, 0⟩).2.failure_count = 0 := by
  decide

/-- C1 amended: `_forward_request` maps a timeout to 504 and a connect error or
any other in-call exception to 502; each is raised as an `HTTPException` that
`_handle_proxy_request` re-raises with no request-end record and no error
metric; only a successful forward records a request end (`success=true`) plus a
request metric, and only a non-HTTPException internal failure records a failed
request end plus an error metric (as a 502).  No breaker-open → 503 case
exists, and a circuit breaker threaded through the handler is returned
unchanged in every case. -/
theorem claim1_forward_failure_flow (cb : CircuitBreaker) :
    handle_proxy_step_cb (ProxyStep.forwarded ForwardOutcome.timeoutErr) cb
      = (⟨504, none, false, false⟩, cb) ∧
    handle_proxy_step_cb (ProxyStep.forwarded ForwardOutcome.connectErr) cb
      = (⟨502, none, false, false⟩, cb) ∧
    handle_proxy_step_cb (ProxyStep.forwarded ForwardOutcome.otherErr) cb
      = (⟨502, none, false, false⟩, cb) ∧
    (∀ status : Nat,
      handle_proxy_step_cb (ProxyStep.forwarded (ForwardOutcome.ok status)) cb
        = (⟨status, some true, true, false⟩, cb)) ∧
    handle_proxy_step_cb ProxyStep.internalFailure cb
      = (⟨502, some false, false, true⟩, cb) := by
  exact ⟨rfl, rfl, rfl, fun _ => rfl, rfl⟩

/-! ### ConnectionStats success rate (C10) -/

/-- The running total of requests equals the count of recorded starts. -/
theorem foldl_total_requests (events : List StatsEvent) :
    ∀ s : ConnectionStats,
      (events.foldl applyStatsEvent s).total_requests
        = s.total_requests + events.countP isStartEvent := by
  induction events with
  | nil => intro s; simp
  | cons e rest ih =>
      intro s
      cases e with
      | reqStart now =>
          simp [applyStatsEvent, ih, isStartEvent, List.countP_cons]
          omega
      | reqEnd success rt =>
          have : (applyStatsEvent s (StatsEvent.reqEnd success rt)).total_requests
              = s.total_requests := by
            cases success <;> cases rt <;> simp [applyStatsEvent]
          simp [List.foldl_cons, ih, List.countP_cons, isStartEvent, this]

/-- The running count of failures equals the count of failed ends. -/
theorem foldl_failed_requests (events : List StatsEvent) :
    ∀ s : ConnectionStats,
      (events.foldl applyStatsEvent s).failed_requests
        = s.failed_requests + events.countP isFailedEnd := by
  induction events with
  | nil => intro s; simp
  | cons e rest ih =>
      intro s
      cases e with
      | reqStart now =>
          simp [applyStatsEvent, ih, isFailedEnd, List.countP_cons]
      | reqEnd success rt =>
          cases success <;> cases rt <;>
            simp [applyStatsEvent, ih, isFailedEnd, List.countP_cons] <;> omega

/-- C10: after any sequence of recorded request outcomes, `total_requests` is
the number of recorded starts, `failed_requests` the number of failed ends, and
`success_rate` equals 1 when `total_requests = 0` and
`(total_requests − failed_requests) / total_requests` otherwise. -/
theorem claim10_success_rate (events : List StatsEvent) :
    (runStats events).total_requests = events.countP isStartEvent ∧
    (runStats events).failed_requests = events.countP isFailedEnd ∧
    ((runStats events).total_requests = 0 → (runStats events).success_rate = 1) ∧
    (0 < (runStats events).total_requests →
      (runStats events).success_rate =
        (((runStats events).total_requests : ℚ) - ((runStats events).failed_requests : ℚ))
          / ((runStats events).total_requests : ℚ)) := by
  refine ⟨?_, ?_, ?_, ?_⟩
  · simpa [runStats, ConnectionStats.init] using foldl_total_requests events ConnectionStats.init
  · simpa [runStats, ConnectionStats.init] using foldl_failed_requests events ConnectionStats.init
  · intro h0
    simp [ConnectionStats.success_rate, h0]
  · intro hpos
    simp [ConnectionStats.success_rate, Nat.pos_iff_ne_zero.mp hpos]

/-- Witness for C10 on the concrete outcome sequence start, failed end, start,
successful end: two total requests, one failed, success rate 1/2. -/
theorem claim10_success_rate_witness :
    (runStats [StatsEvent.reqStart 0, StatsEvent.reqEnd false none,
               StatsEvent.reqStart 1, StatsEvent.reqEnd true (some 2)]).success_rate
      = (((runStats [StatsEvent.reqStart 0, StatsEvent.reqEnd false none,
               StatsEvent.reqStart 1, StatsEvent.reqEnd true (some 2)]).total_requests : ℚ)
          - ((runStats [StatsEvent.reqStart 0, StatsEvent.reqEnd false none,
               StatsEvent.reqStart 1, StatsEvent.reqEnd true (some 2)]).failed_requests : ℚ))
        / ((runStats [StatsEvent.reqStart 0, StatsEvent.reqEnd false none,
               StatsEvent.reqStart 1, StatsEvent.reqEnd true (some 2)]).total_requests : ℚ) :=
  (claim10_success_rate _).2.2.2 (by decide)

/-! ### Load balancer health filtering (C4) -/

/-- The least-connections scan only ever selects an element of the scanned
list (or keeps the seed selection). -/
theorem leastConnFold_mem (lb : LoadBalancerState) (l : List ServiceInstance) :
    ∀ (scan : List ServiceInstance) (acc : ServiceInstance × Option Nat),
      acc.1 ∈ l → (∀ x ∈ scan, x ∈ l) →
      (scan.foldl (leastConnFold lb) acc).1 ∈ l := by
  intro scan
  induction scan with
  | nil => intro acc hacc _; simpa using hacc
  | cons i rest ih =>
      intro acc hacc hsub
      rw [List.foldl_cons]
      apply ih
      · cases hm : acc.2 with
        | none => simpa [leastConnFold, hm] using hsub i (List.mem_cons_self i rest)
        | some m =>
            by_cases hlt : (statsFor lb i).active_connections < m
            · simpa [leastConnFold, hm, hlt] using hsub i (List.mem_cons_self i rest)
            · simpa [leastConnFold, hm, hlt] using hacc
      · intro x hx
        exact hsub x (List.mem_cons_of_mem i hx)

/-- `_least_connections_select` returns an element of its input list. -/
theorem least_connections_select_mem (lb : LoadBalancerState)
    (l : List ServiceInstance) (h : 0 < l.length) :
    least_connections_select lb l h ∈ l :=
  leastConnFold_mem lb l l (l.get ⟨0, h⟩, none) (List.get_mem l _ _) (fun _ hx => hx)

/-- Elements of the weighted virtual list come from the input list. -/
theorem weightedList_subset (l : List ServiceInstance) :
    ∀ x ∈ weightedList l, x ∈ l := by
  intro x hx
  rw [weightedList, List.mem_flatMap] at hx
  obtain ⟨a, ha, hx⟩ := hx
  rwa [List.eq_of_mem_replicate hx]

/-- `_weighted_round_robin_select` returns an element of its input list. -/
theorem weighted_round_robin_select_mem (l : List ServiceInstance)
    (h : 0 < l.length) (idx : Nat) :
    (weighted_round_robin_select l h idx).1 ∈ l := by
  rw [weighted_round_robin_select]
  split
  · exact weightedList_subset l _ (List.get_mem _ _ _)
  · exact List.get_mem l _ _

/-- `_ip_hash_select` returns an element of its input list. -/
theorem ip_hash_select_mem (l : List ServiceInstance) (h : 0 < l.length)
    (md5 : String → Nat) (client_ip : Option String) :
    ip_hash_select l h md5 client_ip ∈ l := by
  cases client_ip <;> exact List.get_mem l _ _

/-- Any successful `select_instance` result is drawn from the health-filtered
list. -/
theorem select_instance_mem_healthy (lb : LoadBalancerState)
    (instances : List ServiceInstance) (client_ip : Option String)
    (md5 : String → Nat) (rnd : Nat) (inst : ServiceInstance)
    (heq : (select_instance lb instances client_ip md5 rnd).1 = some inst) :
    inst ∈ healthyOf lb instances := by
  unfold select_instance at heq
  by_cases hemp : instances = []
  · rw [if_pos hemp] at heq
    simp at heq
  · rw [if_neg hemp] at heq
    by_cases h : 0 < (healthyOf lb instances).length
    · rw [dif_pos h] at heq
      cases halg : lb.algorithm <;> rw [halg] at heq <;>
        simp only [Option.some.injEq] at heq <;> rw [← heq]
      · exact List.get_mem _ _ _
      · exact least_connections_select_mem lb _ h
      · exact weighted_round_robin_select_mem _ h _
      · exact ip_hash_select_mem _ h md5 client_ip
      · exact List.get_mem _ _ _
    · rw [dif_neg h] at heq
      simp at heq

/-- C4: with health checking enabled, `select_instance` never returns an
unhealthy instance — any returned instance is a healthy member of the list —
and when every instance is unhealthy it returns no instance at all. -/
theorem claim4_select_healthy (lb : LoadBalancerState)
    (instances : List ServiceInstance) (client_ip : Option String)
    (md5 : String → Nat) (rnd : Nat)
    (henabled : lb.health_check_enabled = true) :
    (∀ inst, (select_instance lb instances client_ip md5 rnd).1 = some inst →
      inst.healthy = true ∧ inst ∈ instances) ∧
    ((∀ i ∈ instances, i.healthy = false) →
      (select_instance lb instances client_ip md5 rnd).1 = none) := by
  constructor
  · intro inst heq
    have hmem := select_instance_mem_healthy lb instances client_ip md5 rnd inst heq
    rw [healthyOf, List.mem_filter, henabled] at hmem
    refine ⟨?_, hmem.1⟩
    simpa using hmem.2
  · intro hall
    have hnil : healthyOf lb instances = [] := by
      rw [healthyOf, List.filter_eq_nil_iff]
      intro i hi
      simp [henabled, hall i hi]
    unfold select_instance
    by_cases hemp : instances = []
    · rw [if_pos hemp]
    · rw [if_neg hemp, dif_neg (by simp [hnil])]

/-- Witness for C4: with health checking on, round robin over one unhealthy
and one healthy instance returns the healthy one, and an all-unhealthy list
yields no instance. -/
theorem claim4_select_healthy_witness :
    ((⟨"b", 2, 1, true⟩ : ServiceInstance).healthy = true ∧
      (⟨"b", 2, 1, true⟩ : ServiceInstance)
        ∈ [⟨"a", 1, 1, false⟩, ⟨"b", 2, 1, true⟩]) ∧
    (select_instance ⟨LoadBalancingAlgorithm.round_robin, true, 0, []⟩
      [⟨"a", 1, 1, false⟩] none (fun _ => 0) 0).1 = none := by
  constructor
  · exact (claim4_select_healthy ⟨LoadBalancingAlgorithm.round_robin, true, 0, []⟩
      [⟨"a", 1, 1, false⟩, ⟨"b", 2, 1, true⟩] none (fun _ => 0) 0 rfl).1
      ⟨"b", 2, 1, true⟩ (by decide)
  · exact (claim4_select_healthy ⟨LoadBalancingAlgorithm.round_robin, true, 0, []⟩
      [⟨"a", 1, 1, false⟩] none (fun _ => 0) 0 rfl).2 (by decide)

/-! ### Round robin distribution (C5) -/

/-- Index-irrelevant form of `List.get` congruence. -/
theorem get_congr_idx (l : List ServiceInstance) (a b : ℕ) (ha : a < l.length)
    (hb : b < l.length) (hab : a = b) : l.get ⟨a, ha⟩ = l.get ⟨b, hb⟩ := by
  subst hab
  rfl

/-- Successive round-robin selections walk the list cyclically: the t-th
selection picks the element at index `(i0 + t) % length`. -/
theorem round_robin_run_map (l : List ServiceInstance) (h : 0 < l.length) :
    ∀ (m i0 : ℕ), round_robin_run l h i0 m
      = (List.range m).map (fun t => l.get ⟨(i0 + t) % l.length, Nat.mod_lt _ h⟩) := by
  intro m
  induction m with
  | zero => intro i0; rfl
  | succ n ih =>
      intro i0
      rw [List.range_succ_eq_map, List.map_cons, List.map_map]
      show (round_robin_select l h i0).1
          :: round_robin_run l h (round_robin_select l h i0).2 n = _
      refine congrArg₂ List.cons ?_ ?_
      · exact get_congr_idx l _ _ _ _ (by rw [Nat.add_zero])
      · show round_robin_run l h ((i0 + 1) % l.length) n = _
        rw [ih ((i0 + 1) % l.length)]
        apply List.map_congr_left
        intro t _
        have hmod : ((i0 + 1) % l.length + t) % l.length
            = (i0 + Nat.succ t) % l.length := by
          rw [Nat.mod_add_mod]
          congr 1
          omega
        simp only [Function.comp]
        exact get_congr_idx l _ _ _ _ hmod

/-- In one cycle of `N` steps starting anywhere, each index below `N` is hit
exactly once by the cyclic index map. -/
theorem countP_range_cycle_one (N c j : ℕ) (hN : 0 < N) (hj : j < N) :
    (List.range N).countP (fun t => (c + t) % N == j) = 1 := by
  have hcm : c % N < N := Nat.mod_lt _ hN
  have h1 : c % N ≤ N + j := le_trans hcm.le (Nat.le_add_right N j)
  have ht0lt : (N + j - c % N) % N < N := Nat.mod_lt _ hN
  have hmain : (c + (N + j - c % N) % N) % N = j := by
    conv_lhs => rw [Nat.add_mod]
    rw [Nat.mod_mod_of_dvd _ dvd_rfl, ← Nat.add_mod, ← Nat.mod_add_mod,
      Nat.add_sub_cancel' h1, Nat.add_mod_left, Nat.mod_eq_of_lt hj]
  have hcongr : ∀ t ∈ List.range N,
      (((c + t) % N == j) = true ↔ (t == (N + j - c % N) % N) = true) := by
    intro t ht
    have htN : t < N := List.mem_range.mp ht
    simp only [beq_iff_eq]
    constructor
    · intro hcj
      have hmm : Nat.ModEq N t ((N + j - c % N) % N) :=
        Nat.ModEq.add_left_cancel' c (by rw [Nat.ModEq, hcj, hmain])
      rwa [Nat.ModEq, Nat.mod_eq_of_lt htN, Nat.mod_eq_of_lt ht0lt] at hmm
    · rintro rfl
      exact hmain
  rw [List.countP_congr hcongr]
  exact List.count_eq_one_of_mem (List.nodup_range N)
    (List.mem_range.mpr ht0lt)

/-- Over `k` full cycles, each index below `N` is hit exactly `k` times by the
cyclic index map. -/
theorem countP_range_cycle (N c j : ℕ) (hN : 0 < N) (hj : j < N) :
    ∀ k, (List.range (k * N)).countP (fun t => (c + t) % N == j) = k := by
  intro k
  induction k with
  | zero => simp
  | succ n ih =>
      have hsplit : (n + 1) * N = n * N + N := by ring
      rw [hsplit, List.range_add, List.countP_append, List.countP_map, ih]
      have hcongr : ∀ t ∈ List.range N,
          ((((fun t => (c + t) % N == j) ∘ (fun x => n * N + x)) t) = true
            ↔ ((c + t) % N == j) = true) := by
        intro t _
        simp only [Function.comp]
        rw [show c + (n * N + t) = (c + t) + n * N by omega,
          Nat.add_mul_mod_self_right]
      rw [List.countP_congr hcongr, countP_range_cycle_one N c j hN hj]

/-- C5: over a fixed instance list, `k * N` successive round-robin selections
visit the instances in cyclic list order — the t-th selection is the instance
at index `(i0 + t) % N` — and each position is selected exactly `k` times. -/
theorem claim5_round_robin_cycle (l : List ServiceInstance) (h : 0 < l.length)
    (i0 k : ℕ) :
    round_robin_run l h i0 (k * l.length)
      = (List.range (k * l.length)).map
          (fun t => l.get ⟨(i0 + t) % l.length, Nat.mod_lt _ h⟩) ∧
    ∀ j : Fin l.length,
      (List.range (k * l.length)).countP
        (fun t => (i0 + t) % l.length == (j : ℕ)) = k := by
  constructor
  · exact round_robin_run_map l h (k * l.length) i0
  · intro j
    exact countP_range_cycle l.length i0 (j : ℕ) h j.isLt k

/-- Witness for C5: two instances, two full cycles starting at cursor 0 — the
four selections alternate a, b, a, b and each index is selected twice. -/
theorem claim5_round_robin_cycle_witness :
    round_robin_run [⟨"a", 1, 1, true⟩, ⟨"b", 2, 1, true⟩] (by decide) 0 4
      = [⟨"a", 1, 1, true⟩, ⟨"b", 2, 1, true⟩, ⟨"a", 1, 1, true⟩, ⟨"b", 2, 1, true⟩] ∧
    (List.range 4).countP (fun t => (0 + t) % 2 == 1) = 2 := by
  have H := claim5_round_robin_cycle
    [⟨"a", 1, 1, true⟩, ⟨"b", 2, 1, true⟩] (by decide) 0 2
  constructor
  · rw [show (4 : ℕ) = 2 * ([⟨"a", 1, 1, true⟩,
      (⟨"b", 2, 1, true⟩ : ServiceInstance)] : List ServiceInstance).length from rfl, H.1]
    decide
  · exact H.2 ⟨1, by decide⟩

/-! ### Route pattern matching (C7) -/

/-- String append acts as append on the character lists. -/
theorem string_data_append (a b : String) : (a ++ b).data = a.data ++ b.data := by
  cases a
  cases b
  rfl

/-- Strings are equal exactly when their character lists are. -/
theorem string_eq_iff_data (a b : String) : a = b ↔ a.data = b.data := by
  constructor
  · exact congrArg String.data
  · intro h
    cases a
    cases b
    exact congrArg String.mk h

/-- Python `startswith` holds exactly when the string extends the candidate by
some suffix. -/
theorem pyStartsWith_iff (s p : String) :
    pyStartsWith s p = true ↔ ∃ suffix, s = p ++ suffix := by
  rw [pyStartsWith, List.isPrefixOf_iff_prefix]
  constructor
  · rintro ⟨t, ht⟩
    refine ⟨String.mk t, ?_⟩
    rw [string_eq_iff_data, string_data_append]
    exact ht.symm
  · rintro ⟨suffix, rfl⟩
    exact ⟨suffix.data, (string_data_append p suffix).symm⟩

/-- A pattern ending in `/*` in particular ends in `*`. -/
theorem pyEndsWith_star_of_slash_star (pat : String)
    (h : pyEndsWith pat "/*" = true) : pyEndsWith pat "*" = true := by
  rw [pyEndsWith, List.isSuffixOf_iff_suffix] at h ⊢
  exact List.IsSuffix.trans ⟨['/'], rfl⟩ h

/-- C7: a pattern ending in `/*` matches exactly the paths extending the
pattern minus the trailing `/*`; a pattern ending in bare `*` matches exactly
the paths extending the pattern minus the `*`; any other pattern matches only
the identical path; and `_find_matching_route` returns a route exactly when
that route matches and every route registered before it does not. -/
theorem claim7_route_matching (pat p : String) (routes : List RouteConfig)
    (r : RouteConfig) :
    (pyEndsWith pat "/*" = true →
      (path_matches p pat = true ↔ ∃ suffix, p = dropRightStr pat 2 ++ suffix)) ∧
    (pyEndsWith pat "/*" = false → pyEndsWith pat "*" = true →
      (path_matches p pat = true ↔ ∃ suffix, p = dropRightStr pat 1 ++ suffix)) ∧
    (pyEndsWith pat "*" = false → (path_matches p pat = true ↔ p = pat)) ∧
    (find_matching_route routes p = some r ↔
      path_matches p r.path = true ∧
      ∃ pre post, routes = pre ++ r :: post ∧
        ∀ r' ∈ pre, path_matches p r'.path = false) := by
  refine ⟨?_, ?_, ?_, ?_⟩
  · intro h
    rw [path_matches, if_pos h]
    exact pyStartsWith_iff p (dropRightStr pat 2)
  · intro h1 h2
    rw [path_matches, if_neg (by simp [h1]), if_pos h2]
    exact pyStartsWith_iff p (dropRightStr pat 1)
  · intro h
    have h2 : pyEndsWith pat "/*" = false := by
      cases hh : pyEndsWith pat "/*" with
      | false => rfl
      | true => rw [pyEndsWith_star_of_slash_star pat hh] at h; cases h
    rw [path_matches, if_neg (by simp [h2]), if_neg (by simp [h])]
    exact beq_iff_eq
  · rw [find_matching_route, List.find?_eq_some]
    simp only [Bool.not_eq_true']

/-- Witness for C7: `/api/v1/products/*` matches `/api/v1/products/42`, and
route lookup skips a non-matching earlier route to return the first match. -/
theorem claim7_route_matching_witness :
    path_matches "/api/v1/products/42" "/api/v1/products/*" = true ∧
    find_matching_route
        [⟨"/api/v1/users/*", "user"⟩, ⟨"/api/v1/products/*", "products"⟩]
        "/api/v1/products/42"
      = some ⟨"/api/v1/products/*", "products"⟩ := by
  constructor
  · exact (claim7_route_matching "/api/v1/products/*" "/api/v1/products/42" []
      ⟨"/api/v1/products/*", "products"⟩).1 (by decide) |>.mpr ⟨"/42", by decide⟩
  · exact (claim7_route_matching "/api/v1/products/*" "/api/v1/products/42"
      [⟨"/api/v1/users/*", "user"⟩, ⟨"/api/v1/products/*", "products"⟩]
      ⟨"/api/v1/products/*", "products"⟩).2.2.2.mpr
      ⟨by decide, [⟨"/api/v1/users/*", "user"⟩], [], rfl, by decide⟩

/-! ### Upstream URL construction (C8) -/

/-- C8 counterexample: for a request to `/products/42` on a route with the
strip flag set, the code leaves the path untouched (it only strips
`api/v1/<service>` prefixes) and appends the slash-less catch-all value
directly to the instance URL, producing `http://localhost:8003products/42` —
not the `http://localhost:8003/42` that dropping a leading `/<service>`
segment group would give. -/
theorem claim8_counterexample :
    upstream_url_for_request ⟨"localhost", 8003, 1, true⟩ "/products/42" true
      = "http://localhost:8003products/42" ∧
    claim_build_upstream_url ⟨"localhost", 8003, 1, true⟩ "products" "/products/42"
      = "http://localhost:8003/42" ∧
    upstream_url_for_request ⟨"localhost", 8003, 1, true⟩ "/products/42" true
      ≠ claim_build_upstream_url ⟨"localhost", 8003, 1, true⟩ "products" "/products/42" := by
  refine ⟨by decide, by decide, by decide⟩

/-- C8 amended: with the strip flag set, only a leading `api/v1/<service>`
segment group is dropped — when the slash-stripped path splits as
`api :: v1 :: svc :: rest` the upstream path is `/` followed by the remaining
segments (bare `/` if none); any other path, including one starting with a
bare `/<service>` group, is appended to the instance URL unchanged (and the
handler passes it without its leading slash).  With the flag clear the path is
always appended unchanged.  A request to `/api/v1/products/42` is forwarded to
the instance URL plus `/42`. -/
theorem claim8_strip_rule (i : ServiceInstance) (path : String) :
    (∀ (svc : String) (rest : List String),
      splitSlash (stripSlashChars path) = "api" :: "v1" :: svc :: rest →
      build_upstream_url i path true
        = i.url ++ (if rest = [] then "/" else "/" ++ joinSlash rest)) ∧
    ((∀ (svc : String) (rest : List String),
        splitSlash (stripSlashChars path) ≠ "api" :: "v1" :: svc :: rest) →
      build_upstream_url i path true = i.url ++ path) ∧
    build_upstream_url i path false = i.url ++ path ∧
    upstream_url_for_request i "/api/v1/products/42" true = i.url ++ "/42" := by
  refine ⟨?_, ?_, rfl, rfl⟩
  · intro svc rest h
    by_cases hrest : rest = []
    · subst hrest
      simp [build_upstream_url, h]
    · have hcond : 3 ≤ ("api" :: "v1" :: svc :: rest : List String).length ∧
          ("api" :: "v1" :: svc :: rest : List String).get? 0 = some "api" ∧
          ("api" :: "v1" :: svc :: rest : List String).get? 1 = some "v1" :=
        ⟨by simp, rfl, rfl⟩
      have hlt : 3 < ("api" :: "v1" :: svc :: rest : List String).length := by
        have := List.length_pos.mpr hrest
        simp only [List.length_cons]
        omega
      simp only [build_upstream_url, h, if_true]
      rw [if_pos hcond, if_pos hlt, if_neg hrest]
      simp
  · intro h2
    have hnc : ¬(3 ≤ (splitSlash (stripSlashChars path)).length ∧
        (splitSlash (stripSlashChars path)).get? 0 = some "api" ∧
        (splitSlash (stripSlashChars path)).get? 1 = some "v1") := by
      rintro ⟨hlen, h0, h1⟩
      rcases hsplit : splitSlash (stripSlashChars path)
        with _ | ⟨a, _ | ⟨b, _ | ⟨c, rest⟩⟩⟩ <;>
        rw [hsplit] at hlen h0 h1
      · simp at hlen
      · simp at hlen
      · simp at hlen
      · simp only [List.get?] at h0 h1
        rw [Option.some.injEq] at h0 h1
        exact h2 c rest (by rw [hsplit, h0, h1])
    simp only [build_upstream_url, if_true]
    rw [if_neg hnc]

/-- Witness for C8's amended rule: the path `api/v1/products/42` splits as
`api :: v1 :: products :: [42]` and is rewritten to `/42`. -/
theorem claim8_strip_rule_witness :
    build_upstream_url ⟨"localhost", 8003, 1, true⟩ "api/v1/products/42" true
      = (⟨"localhost", 8003, 1, true⟩ : ServiceInstance).url
          ++ (if (["42"] : List String) = [] then "/" else "/" ++ joinSlash ["42"]) :=
  (claim8_strip_rule ⟨"localhost", 8003, 1, true⟩ "api/v1/products/42").1
    "products" ["42"] (by decide)

/-! ### Sticky sessions bypass health and stats (C9) -/

/-- C9: with sticky sessions enabled and a cookie whose unexpired session
record names an instance present in the list, `_select_upstream_instance`
returns that instance directly: the load balancer (and its health filter) is
never consulted, no `record_request_start` is issued (the balancer state is
returned unchanged), and nothing inspects the instance's `healthy` flag. -/
theorem claim9_sticky_bypass (sessions : SessionMap) (session_timeout now : ℚ)
    (sid : String) (instances : List ServiceInstance) (lb : LoadBalancerState)
    (client_ip : Option String) (md5 : String → Nat) (rnd : Nat)
    (sd : SessionData) (i : ServiceInstance)
    (hsd : sessionLookup sessions sid = some sd)
    (hfresh : now - sd.created_at ≤ session_timeout)
    (hfind : instances.find? (fun x => instanceKey x == sd.instance_key) = some i) :
    select_upstream_instance true (some sid) sessions session_timeout now
        instances lb client_ip md5 rnd
      = ⟨some i, lb, sessions, false⟩ := by
  simp [select_upstream_instance, get_session_instance, hsd, hfind,
    not_lt.mpr hfresh]

/-- Witness for C9: a session pinned to an unhealthy instance keeps resolving
to it although a healthy alternative exists, with no request start recorded. -/
theorem claim9_sticky_bypass_witness :
    select_upstream_instance true (some "s1") [("s1", ⟨"bad:1", 0⟩)] 3600 100
        [⟨"bad", 1, 1, false⟩, ⟨"good", 2, 1, true⟩]
        ⟨LoadBalancingAlgorithm.round_robin, true, 0, []⟩ none (fun _ => 0) 0
      = ⟨some ⟨"bad", 1, 1, false⟩,
         ⟨LoadBalancingAlgorithm.round_robin, true, 0, []⟩,
         [("s1", ⟨"bad:1", 0⟩)], false⟩ :=
  claim9_sticky_bypass [("s1", ⟨"bad:1", 0⟩)] 3600 100 "s1"
    [⟨"bad", 1, 1, false⟩, ⟨"good", 2, 1, true⟩]
    ⟨LoadBalancingAlgorithm.round_robin, true, 0, []⟩ none (fun _ => 0) 0
    ⟨"bad:1", 0⟩ ⟨"bad", 1, 1, false⟩ (by decide) (by norm_num) (by decide)

/-! ### Rate limiter (C6) -/

/-- Whatever the verdict, `_is_rate_limited` writes the pruned bucket back. -/
theorem is_rate_limited_snd (now : ℚ) (rpm burst : Nat) (b : RateBucket) :
    (is_rate_limited now rpm burst b).2 = pruneBucket now b := by
  simp only [is_rate_limited]
  split
  · rfl
  · split <;> rfl

/-- Reading back the bucket just written for a key. -/
theorem rateBucketFor_set_eq (st : RateState) (k : String) (b : RateBucket) :
    rateBucketFor (setRateBucket st k b) k = b := by
  induction st with
  | nil => simp [setRateBucket, rateBucketFor, List.find?_cons]
  | cons p rest ih =>
      by_cases hp : (p.1 == k) = true
      · simp [setRateBucket, hp, rateBucketFor, List.find?_cons]
      · simp only [setRateBucket, hp, if_false, Bool.false_eq_true]
        simpa [rateBucketFor, List.find?_cons, hp] using ih

/-- Writing one key's bucket leaves every other key's bucket unchanged. -/
theorem rateBucketFor_set_ne (st : RateState) (k s : String) (b : RateBucket)
    (h : k ≠ s) :
    rateBucketFor (setRateBucket st k b) s = rateBucketFor st s := by
  have hb : (k == s) = false := beq_eq_false_iff_ne.mpr h
  induction st with
  | nil => simp [setRateBucket, rateBucketFor, List.find?_cons, hb]
  | cons p rest ih =>
      by_cases hp : (p.1 == k) = true
      · have hps : (p.1 == s) = false := by
          rw [beq_iff_eq] at hp
          rw [hp]
          exact hb
        simp [setRateBucket, hp, rateBucketFor, List.find?_cons, hps]
      · by_cases hps : (p.1 == s) = true
        · simp [setRateBucket, hp, rateBucketFor, List.find?_cons, hps]
        · simp only [setRateBucket, hp, if_false, Bool.false_eq_true]
          simpa [rateBucketFor, List.find?_cons, hps] using ih

/-- Pruned buckets only contain timestamps from the original bucket. -/
theorem pruneBucket_subset (now t : ℚ) (b : RateBucket)
    (h : t ∈ pruneBucket now b) : t ∈ b :=
  (List.mem_filter.mp h).1

/-- When the whole checking loop admits the request, every dimension's bucket
has been pruned in place and no other key was touched. -/
theorem checkRateKeys_state (now : ℚ) : ∀ (keys : List RateKey) (st : RateState),
    (checkRateKeys now st keys).1 = false →
    (keys.map RateKey.key).Nodup →
    ((∀ k ∈ keys, rateBucketFor (checkRateKeys now st keys).2 k.key
        = pruneBucket now (rateBucketFor st k.key)) ∧
     (∀ s : String, (∀ k ∈ keys, k.key ≠ s) →
        rateBucketFor (checkRateKeys now st keys).2 s = rateBucketFor st s)) := by
  intro keys
  induction keys with
  | nil =>
      intro st _ _
      exact ⟨by simp, fun s _ => rfl⟩
  | cons k rest ih =>
      intro st hfalse hnd
      rw [List.map_cons, List.nodup_cons] at hnd
      have hkey : ∀ k' ∈ rest, k'.key ≠ k.key := by
        intro k' hk' hco
        exact hnd.1 (hco ▸ List.mem_map_of_mem RateKey.key hk')
      by_cases hr : (is_rate_limited now k.rpm k.burst (rateBucketFor st k.key)).1 = true
      · exfalso
        rw [checkRateKeys] at hfalse
        rw [if_pos hr] at hfalse
        exact Bool.noConfusion hfalse
      · have hstep : checkRateKeys now st (k :: rest)
            = checkRateKeys now
                (setRateBucket st k.key
                  (is_rate_limited now k.rpm k.burst (rateBucketFor st k.key)).2)
                rest := by
          rw [checkRateKeys]
          rw [if_neg hr]
        rw [hstep] at hfalse ⊢
        have ihs := ih _ hfalse hnd.2
        constructor
        · intro k' hk'
          rcases List.mem_cons.mp hk' with rfl | hk'
          · rw [ihs.2 k'.key hkey, rateBucketFor_set_eq, is_rate_limited_snd]
          · rw [ihs.1 k' hk',
              rateBucketFor_set_ne _ _ _ _ (fun hco => hkey k' hk' hco.symm)]
        · intro s hs
          rw [ihs.2 s (fun k' hk' => hs k' (List.mem_cons_of_mem k hk')),
            rateBucketFor_set_ne _ _ _ _ (hs k (List.mem_cons_self k rest))]

/-- The checking loop never adds the current timestamp to any bucket. -/
theorem checkRateKeys_not_mem (now : ℚ) : ∀ (keys : List RateKey) (st : RateState),
    (∀ s : String, now ∉ rateBucketFor st s) →
    ∀ s : String, now ∉ rateBucketFor (checkRateKeys now st keys).2 s := by
  intro keys
  induction keys with
  | nil => intro st h s; exact h s
  | cons k rest ih =>
      intro st h s
      have hst2 : ∀ s : String, now ∉ rateBucketFor
          (setRateBucket st k.key
            (is_rate_limited now k.rpm k.burst (rateBucketFor st k.key)).2) s := by
        intro s'
        by_cases hks : k.key = s'
        · subst hks
          rw [rateBucketFor_set_eq, is_rate_limited_snd]
          intro hmem
          exact h k.key (pruneBucket_subset now now _ hmem)
        · rw [rateBucketFor_set_ne _ _ _ _ hks]
          exact h s'
      rw [checkRateKeys]
      split
      · exact hst2 s
      · exact ih _ hst2 s

/-- Recording touches no bucket outside the request's dimensions. -/
theorem recordRateKeys_ne (now : ℚ) : ∀ (keys : List RateKey) (st : RateState)
    (s : String), (∀ k ∈ keys, k.key ≠ s) →
    rateBucketFor (recordRateKeys now st keys) s = rateBucketFor st s := by
  intro keys
  induction keys with
  | nil => intro st s _; rfl
  | cons k rest ih =>
      intro st s hs
      show rateBucketFor (recordRateKeys now _ rest) s = _
      rw [ih _ s (fun k' hk' => hs k' (List.mem_cons_of_mem k hk')),
        rateBucketFor_set_ne _ _ _ _ (hs k (List.mem_cons_self k rest))]

/-- Recording appends the current timestamp to every dimension's bucket. -/
theorem recordRateKeys_mem (now : ℚ) : ∀ (keys : List RateKey) (st : RateState),
    (keys.map RateKey.key).Nodup →
    ∀ k ∈ keys, rateBucketFor (recordRateKeys now st keys) k.key
      = rateBucketFor st k.key ++ [now] := by
  intro keys
  induction keys with
  | nil => intro st _ k hk; cases hk
  | cons k rest ih =>
      intro st hnd k' hk'
      rw [List.map_cons, List.nodup_cons] at hnd
      have hkey : ∀ x ∈ rest, x.key ≠ k.key := by
        intro x hx hco
        exact hnd.1 (hco ▸ List.mem_map_of_mem RateKey.key hx)
      show rateBucketFor (recordRateKeys now _ rest) k'.key = _
      rcases List.mem_cons.mp hk' with rfl | hk'
      · rw [recordRateKeys_ne now rest _ k'.key hkey, rateBucketFor_set_eq]
      · rw [ih _ hnd.2 k' hk',
          rateBucketFor_set_ne _ _ _ _ (fun hco => hkey k' hk' hco.symm)]

/-- C6: (i) the bucket written back by a check contains exactly the timestamps
younger than 60 seconds; (ii) a key is limited exactly when the pruned count
reaches `rpm`, or is below `rpm` while the sub-second count reaches `burst`;
(iii) when no dimension rejects, the current timestamp is appended to every
dimension's (pruned) bucket; (iv) when some dimension rejects (429), the
current timestamp is appended to no bucket at all; (v) with `rpm = 5`, the
sixth request within 60 seconds from one key is rejected and a request after
the window has rolled past 60 seconds is admitted again. -/
theorem claim6_rate_limiter :
    (∀ (now : ℚ) (rpm burst : Nat) (b : RateBucket) (t : ℚ),
      t ∈ (is_rate_limited now rpm burst b).2 ↔ (t ∈ b ∧ now - t < 60)) ∧
    (∀ (now : ℚ) (rpm burst : Nat) (b : RateBucket),
      ((is_rate_limited now rpm burst b).1 = true ↔
        (rpm ≤ (pruneBucket now b).length ∨
          ((pruneBucket now b).length < rpm ∧
            burst ≤ ((pruneBucket now b).filter
              (fun t => decide (now - t < 1))).length)))) ∧
    (∀ (now : ℚ) (st : RateState) (keys : List RateKey),
      (keys.map RateKey.key).Nodup →
      (rate_limit_dispatch now st keys).1 = false →
      ∀ k ∈ keys, rateBucketFor (rate_limit_dispatch now st keys).2 k.key
        = pruneBucket now (rateBucketFor st k.key) ++ [now]) ∧
    (∀ (now : ℚ) (st : RateState) (keys : List RateKey),
      (∀ s : String, now ∉ rateBucketFor st s) →
      (rate_limit_dispatch now st keys).1 = true →
      ∀ s : String, now ∉ rateBucketFor (rate_limit_dispatch now st keys).2 s) ∧
    (rateLimitRun []
        [(0, [⟨"ip:1", 5, 10⟩]), (10, [⟨"ip:1", 5, 10⟩]), (20, [⟨"ip:1", 5, 10⟩]),
         (30, [⟨"ip:1", 5, 10⟩]), (40, [⟨"ip:1", 5, 10⟩]), (50, [⟨"ip:1", 5, 10⟩]),
         (111, [⟨"ip:1", 5, 10⟩])]).1
      = [false, false, false, false, false, true, false] := by
  refine ⟨?_, ?_, ?_, ?_, ?_⟩
  · intro now rpm burst b t
    rw [is_rate_limited_snd]
    simp [pruneBucket, List.mem_filter]
  · intro now rpm burst b
    by_cases hA : rpm ≤ (pruneBucket now b).length
    · simp [is_rate_limited, hA]
    · by_cases hB : burst ≤ ((pruneBucket now b).filter
          (fun t => decide (now - t < 1))).length <;>
        simp [is_rate_limited, hA, hB, lt_of_not_le hA]
  · intro now st keys hnd hfalse k hk
    have hcfalse : (checkRateKeys now st keys).1 = false := by
      by_contra hc
      rw [rate_limit_dispatch] at hfalse
      rw [if_pos (Bool.not_eq_false _ |>.mp hc)] at hfalse
      exact Bool.noConfusion hfalse
    have hdisp : rate_limit_dispatch now st keys
        = (false, recordRateKeys now (checkRateKeys now st keys).2 keys) := by
      rw [rate_limit_dispatch]
      rw [if_neg (by rw [hcfalse]; exact Bool.noConfusion)]
    rw [hdisp]
    have hchk := checkRateKeys_state now keys st hcfalse hnd
    rw [recordRateKeys_mem now keys _ hnd k hk, hchk.1 k hk]
  · intro now st keys hfree htrue s
    have hctrue : (checkRateKeys now st keys).1 = true := by
      by_contra hc
      rw [rate_limit_dispatch] at htrue
      rw [if_neg hc] at htrue
      exact Bool.noConfusion htrue
    have hdisp : rate_limit_dispatch now st keys
        = (true, (checkRateKeys now st keys).2) := by
      rw [rate_limit_dispatch]
      rw [if_pos hctrue]
    rw [hdisp]
    exact checkRateKeys_not_mem now keys st hfree s
  · norm_num [rateLimitRun, rate_limit_dispatch, checkRateKeys, recordRateKeys,
      is_rate_limited, pruneBucket, rateBucketFor, setRateBucket,
      List.filter_cons, List.find?, decide_eq_true_eq]

/-- Witness for C6: a single ip dimension at `t = 5` with one 4-second-old
timestamp is admitted, and its bucket becomes the pruned bucket plus the new
timestamp. -/
theorem claim6_rate_limiter_witness :
    rateBucketFor (rate_limit_dispatch 5 [("ip:1", [1])] [⟨"ip:1", 5, 10⟩]).2 "ip:1"
      = pruneBucket 5 (rateBucketFor [("ip:1", [1])] "ip:1") ++ [5] :=
  claim6_rate_limiter.2.2.1 5 [("ip:1", [1])] [⟨"ip:1", 5, 10⟩] (by decide)
    (by norm_num [rate_limit_dispatch, checkRateKeys, is_rate_limited,
      pruneBucket, rateBucketFor, List.filter_cons, List.find?,
      decide_eq_true_eq])
    ⟨"ip:1", 5, 10⟩ (by decide)

end Gateway
